import Mathlib

/-!
# linux_pipe_ex: a file server and its client talking over named pipes

A shallow embedding of `server.c` and `client.c`.

* The operating system is an explicit `World`: regular files with their
  contents, the named pipes that exist, and the outcome the kernel gives to
  the system calls the programs check (`open`, `read`, `write`, `unlink`).
  Every system call appends a `Call` to the world's trace, so that "which
  calls were made, in which order, with which result" is part of the state.
* C `int` results are `Int`; the comparison against `-1` is kept as in the
  source.
* Byte buffers are lists of byte values; file names are strings.
* The messages the server prints are not part of the model; those of the
  client are recorded in the trace by their format string.
-/

namespace PipeEx

/-! ## Constants shared by `server.c` and `client.c` -/

def SERVER_FIFO : String := "/tmp/server_fifo"
def MAX_BUF : Nat := 1024
def MAX_FILENAME : Nat := 256
def MAX_RETRIES : Nat := 3
def ERR_FIFO_OPEN : Int := -1
def ERR_FILE_OPEN : Int := -2
def ERR_READ : Int := -3
def ERR_WRITE : Int := -4

/-- Smallest value of a C `int` (also of `pid_t`). -/
def INT_MIN : Int := -2147483648
/-- Largest value of a C `int` (also of `pid_t`). -/
def INT_MAX : Int := 2147483647

/-! ## Wire records -/

/-- The `Request` struct: `filename`, `mode`, `bytes`, `data`, `client_pid`. -/
structure Request where
  filename : String
  mode : Char
  bytes : Int
  data : List Nat
  client_pid : Int
  deriving DecidableEq, Repr

/-- The `Response` struct: `status`, `data`, `bytes`. -/
structure Response where
  status : Int
  data : List Nat
  bytes : Int
  deriving DecidableEq, Repr

/-- The initialiser `Response resp = {0}`: every member zero. -/
def Response.zero : Response :=
  ⟨0, List.replicate MAX_BUF 0, 0⟩

/-! ## `printf`-style formatting of the reply-channel name -/

/-- The conversion `%d`: a minus sign for negatives, then the decimal digits. -/
def fmt_d (n : Int) : List Char :=
  if n < 0 then '-' :: Nat.toDigits 10 n.natAbs else Nat.toDigits 10 n.toNat

/-- The call `snprintf(buf, size, "<pre>%d<post>", n)`: the formatted text cut
to `size - 1` characters (the last byte of the buffer holds the terminator). -/
def snprintf_d (size : Nat) (pre : List Char) (n : Int) (post : List Char) : String :=
  String.mk ((pre ++ fmt_d n ++ post).take (size - 1))

/-! ## The operating system -/

/-- Access mode given to `open`. -/
inductive OFlag where
  | O_RDONLY
  | O_WRONLY
  deriving DecidableEq, Repr

/-- One system call as it happened: its arguments and what it returned. -/
inductive Call where
  /-- An `open` of a regular file; `ok = false` is the return value `-1`. -/
  | openFile (path : String) (flag : OFlag) (ok : Bool)
  /-- An `open` of a named pipe. -/
  | openFifo (path : String) (flag : OFlag) (ok : Bool)
  | read (path : String) (count : Nat) (ret : Int)
  | write (path : String) (count : Nat) (ret : Int)
  /-- A `write` of one whole `Response` record to a named pipe. -/
  | send (path : String) (resp : Response)
  /-- A `close`; `none` is a descriptor variable that was never assigned. -/
  | close (path : Option String)
  | unlink (path : String) (ret : Int)
  | mkfifo (path : String) (ret : Int)
  /-- A `write` of one whole `Request` record to the rendezvous pipe; `ok` tells
  whether it returned `sizeof(Request)`. -/
  | sendRequest (path : String) (req : Request) (ok : Bool)
  /-- A `read` of one whole `Response` record from the reply pipe. -/
  | recv (path : String) (ok : Bool)
  | sleep (seconds : Nat)
  /-- A `printf`, recorded by its format string. -/
  | printf (fmt : String)
  /-- A `perror`, recorded by its message. -/
  | perror (msg : String)
  deriving DecidableEq, Repr

/-- The state of the machine the programs run on.

`files` are the regular files and `fifos` the named pipes that exist (two
name spaces: file operations on a pipe name are outside the model).  The
remaining fields fix how the kernel answers: `rdeny`/`wdeny` list existing
files whose `open` for reading/writing is refused, `rfault`/`wfault` make
`read`/`write` return `-1`, and `wlimit` bounds the bytes one `write`
transfers (a short write). -/
structure World where
  files : List (String × List Nat)
  fifos : List String
  rdeny : List String
  wdeny : List String
  rfault : Bool
  wfault : Bool
  wlimit : Option Nat
  trace : List Call
  deriving DecidableEq, Repr

/-- An open descriptor: the path it was opened on. -/
structure Fd where
  path : String
  deriving DecidableEq, Repr

/-- Conversion of an `int` argument to `size_t` (64 bit), as happens when
`bytes` is passed as the count of `read` and `write`. -/
def size_t_of_int (n : Int) : Nat := (n % 2 ^ 64).toNat

/-- Append one call to the trace. -/
def World.log (w : World) (c : Call) : World :=
  { w with trace := w.trace ++ [c] }

/-- Replace the contents stored under `path`. -/
def setFile (fs : List (String × List Nat)) (path : String) (c : List Nat) :
    List (String × List Nat) :=
  fs.map (fun e => if e.1 = path then (e.1, c) else e)

/-- The call `open(path, flag)` on a regular file, without `O_CREAT`: fails
when the file does not exist or the access is refused, never creates it. -/
def sys_open (w : World) (path : String) (flag : OFlag) : World × Option Fd :=
  match w.files.lookup path with
  | none => (w.log (.openFile path flag false), none)
  | some _ =>
    let denied := match flag with
      | .O_RDONLY => w.rdeny.contains path
      | .O_WRONLY => w.wdeny.contains path
    if denied then (w.log (.openFile path flag false), none)
    else (w.log (.openFile path flag true), some ⟨path⟩)

/-- The call `open(path, flag)` on a named pipe: fails when the pipe does not
exist. -/
def sys_open_fifo (w : World) (path : String) (flag : OFlag) : World × Option Fd :=
  if w.fifos.contains path then (w.log (.openFifo path flag true), some ⟨path⟩)
  else (w.log (.openFifo path flag false), none)

/-- The call `read(fd, buf, count)` on a freshly opened regular file: returns
`-1` on a fault, otherwise copies the first `min count length` bytes of the
file to the start of `buf` and returns how many. -/
def sys_read (w : World) (fd : Fd) (buf : List Nat) (count : Nat) :
    World × Int × List Nat :=
  match w.files.lookup fd.path with
  | none => (w.log (.read fd.path count (-1)), -1, buf)
  | some content =>
    if w.rfault then (w.log (.read fd.path count (-1)), -1, buf)
    else
      let got := content.take count
      (w.log (.read fd.path count got.length), got.length, got ++ buf.drop got.length)

/-- How many bytes the kernel accepts from a `write` of `count` bytes: all of
them, or no more than `wlimit`. -/
def write_len (w : World) (count : Nat) : Nat :=
  match w.wlimit with
  | none => count
  | some m => min count m

/-- The call `write(fd, buf, count)` on a freshly opened regular file (offset
0, no `O_TRUNC`, no `O_APPEND`): returns `-1` on a fault, otherwise overwrites
the start of the file with the bytes transferred and returns how many; the
rest of the file stays. -/
def sys_write (w : World) (fd : Fd) (buf : List Nat) (count : Nat) : World × Int :=
  match w.files.lookup fd.path with
  | none => (w.log (.write fd.path count (-1)), -1)
  | some content =>
    if w.wfault then (w.log (.write fd.path count (-1)), -1)
    else
      let src := buf.take (write_len w count)
      let w1 := { w with files := setFile w.files fd.path (src ++ content.drop src.length) }
      (w1.log (.write fd.path count src.length), src.length)

/-- The call `write(client_fd, &resp, sizeof(Response))` on the reply pipe. -/
def sys_send (w : World) (fd : Fd) (resp : Response) : World :=
  w.log (.send fd.path resp)

/-- The call `close(fd)`; `none` stands for a descriptor variable that holds
no descriptor of this process. -/
def sys_close (w : World) (fd : Option Fd) : World :=
  w.log (.close (fd.map Fd.path))

/-- The call `unlink(path)`: removes the name and returns 0, or returns `-1`
when nothing of that name exists. -/
def sys_unlink (w : World) (path : String) : World × Int :=
  if w.fifos.contains path || (w.files.lookup path).isSome then
    ({ w with
        fifos := w.fifos.filter (fun p => p ≠ path)
        files := w.files.filter (fun e => e.1 ≠ path) }.log (.unlink path 0), 0)
  else (w.log (.unlink path (-1)), -1)

/-- The call `mkfifo(path, 0666)`: creates the named pipe and returns 0, or
returns `-1` when the name is taken. -/
def sys_mkfifo (w : World) (path : String) : World × Int :=
  if w.fifos.contains path || (w.files.lookup path).isSome then
    (w.log (.mkfifo path (-1)), -1)
  else ({ w with fifos := path :: w.fifos }.log (.mkfifo path 0), 0)

/-! ## `server.c` -/

/-- The function `process_file_operation(filename, mode, data, bytes, resp)`. -/
def process_file_operation (w : World) (filename : String) (mode : Char)
    (data : List Nat) (bytes : Int) (resp : Response) : World × Response × Int :=
  if mode = 'r' then
    match sys_open w filename .O_RDONLY with
    | (w1, none) => (w1, resp, ERR_FILE_OPEN)
    | (w1, some fd) =>
      match sys_read w1 fd resp.data (size_t_of_int bytes) with
      | (w2, io_result, buf) =>
        if io_result = -1 then (sys_close w2 (some fd), resp, ERR_READ)
        else
          (sys_close w2 (some fd), { resp with data := buf, bytes := io_result }, 0)
  else if mode = 'w' then
    match sys_open w filename .O_WRONLY with
    | (w1, none) => (w1, resp, ERR_FILE_OPEN)
    | (w1, some fd) =>
      match sys_write w1 fd data (size_t_of_int bytes) with
      | (w2, io_result) =>
        if io_result = -1 then (sys_close w2 (some fd), resp, ERR_WRITE)
        else (sys_close w2 (some fd), { resp with bytes := io_result }, 0)
  else
    (sys_close w none, resp, 0)

/-- The name the worker gives to the reply channel:
`snprintf(client_fifo, sizeof(client_fifo), "/tmp/client_%d_fifo", req->client_pid)`. -/
def server_client_fifo (client_pid : Int) : String :=
  snprintf_d MAX_FILENAME "/tmp/client_".toList client_pid "_fifo".toList

/-- The function `handle_client_request(req)`. -/
def handle_client_request (w : World) (req : Request) : World :=
  let client_fifo := server_client_fifo req.client_pid
  let resp := Response.zero
  match sys_open_fifo w client_fifo .O_WRONLY with
  | (w1, none) => w1
  | (w1, some client_fd) =>
    match process_file_operation w1 req.filename req.mode req.data req.bytes resp with
    | (w2, resp, result) =>
      let resp :=
        if result = ERR_FILE_OPEN then { resp with status := -1 }
        else { resp with status := if result = 0 then 0 else -1 }
      sys_close (sys_send w2 client_fd resp) (some client_fd)

/-! ## `client.c` -/

/-- The file-scope variables of the client: `client_fifo` and `running`. -/
structure Client where
  client_fifo : String
  running : Bool
  deriving DecidableEq, Repr

/-- The name the client gives to its reply channel:
`snprintf(client_fifo, sizeof(client_fifo), "/tmp/client_%d_fifo", getpid())`. -/
def client_fifo_name (pid : Int) : String :=
  snprintf_d MAX_FILENAME "/tmp/client_".toList pid "_fifo".toList

/-- The function `cleanup()` of the client. -/
def cleanup (w : World) (c : Client) : World :=
  match sys_unlink w c.client_fifo with
  | (w1, r) =>
    if r = 0 then w1.log (.printf "Client FIFO '%s' successfully deleted.\n")
    else w1.log (.perror "Failed to delete client FIFO")

/-- The function `handle_signal(sig)` of the client. -/
def handle_signal (w : World) (c : Client) : World × Client :=
  let c := { c with running := false }
  let w := w.log (.printf "Signal received. Initiating cleanup...\n")
  (cleanup w c, c)

/-- What happens when `main` returns or `exit` is called: the handler
registered with `atexit(cleanup)` runs. -/
def run_atexit (w : World) (c : Client) : World :=
  cleanup w c

/-- The start of the client's `main` up to the creation of the reply channel:
the name is formatted, a stale pipe of that name is unlinked, the pipe is
created; a failing `mkfifo` ends the process with `exit(1)`. -/
def client_startup (w : World) (pid : Int) : World × Option Client :=
  let c : Client := ⟨client_fifo_name pid, true⟩
  match sys_unlink w c.client_fifo with
  | (w1, _) =>
    match sys_mkfifo w1 c.client_fifo with
    | (w2, r) =>
      if r = -1 then
        (run_atexit (w2.log (.perror "Failed to create client FIFO")) c, none)
      else
        ((w2.log (.printf "Client FIFO '%s' created successfully.\n")).log
          (.printf "Client started (PID: %d)\n"), some c)

/-! ### Reading the user's input -/

/-- The characters one `fgets` may take: at most `n`, ending after a newline. -/
def fgets_chars : Nat → List Char → List Char × List Char
  | 0, s => ([], s)
  | _ + 1, [] => ([], [])
  | n + 1, c :: s =>
    if c = '\n' then ([c], s)
    else
      let r := fgets_chars n s
      (c :: r.1, r.2)

/-- The call `fgets(buf, size, stdin)`: `none` is the `NULL` returned at end
of input; otherwise the characters stored and the input left. -/
def fgets (size : Nat) (stdin : List Char) : Option (List Char) × List Char :=
  match stdin with
  | [] => (none, [])
  | _ :: _ =>
    let r := fgets_chars (size - 1) stdin
    (some r.1, r.2)

/-- The string a buffer holds: its characters before the first NUL. -/
def cstr (buf : List Char) : List Char :=
  buf.takeWhile (fun c => c ≠ Char.ofNat 0)

/-- The call `strcspn(s, reject)`. -/
def strcspn (s reject : List Char) : Nat :=
  (s.takeWhile (fun c => !reject.contains c)).length

/-- The function `safe_input(buf, size)`: the result code, the string left in
`buf` (the line without its newline) and the input left. -/
def safe_input (size : Nat) (stdin : List Char) : Int × List Char × List Char :=
  match fgets size stdin with
  | (none, rest) => (-1, [], rest)
  | (some raw, rest) =>
    let buf := cstr raw
    (0, buf.take (strcspn buf ['\n']), rest)

/-- The white space `atoi` skips (`isspace` in the C locale). -/
def isspace (c : Char) : Bool :=
  c = ' ' || c = '\t' || c = '\n' || c = Char.ofNat 11 || c = Char.ofNat 12 || c = '\r'

/-- The call `atoi(s)` as glibc computes it, `(int) strtol(s, NULL, 10)`:
leading white space, an optional sign, then digits; the `long` is clamped to
its range and cut to 32 bits. -/
def atoi (s : List Char) : Int :=
  let s := s.dropWhile isspace
  let signed : Bool × List Char :=
    match s with
    | '-' :: r => (true, r)
    | '+' :: r => (false, r)
    | _ => (false, s)
  let digits := signed.2.takeWhile Char.isDigit
  let v : Int := digits.foldl (fun a c => 10 * a + ((c.toNat : Int) - 48)) 0
  let v := if signed.1 then -v else v
  let v := max (-(2 ^ 63)) (min v (2 ^ 63 - 1))
  (v + 2 ^ 31) % 2 ^ 32 - 2 ^ 31

/-- The call `strncpy(dst, src, n)` on a character buffer: the first `n`
characters of `dst` become `src` (cut to `n` characters, or filled up with
NUL), the rest of `dst`, byte `n` included, stays as it was. -/
def strncpy_chars (dst src : List Char) (n : Nat) : List Char :=
  src.take n ++ List.replicate (n - src.length) (Char.ofNat 0) ++ dst.drop n

/-- The call `strncpy(dst, src, n)` on a byte buffer: the first `n` bytes of
`dst` become `src` (cut to `n` bytes, or filled up with zero bytes), the rest
of `dst` stays. -/
def strncpy (dst src : List Nat) (n : Nat) : List Nat :=
  src.take n ++ List.replicate (n - src.length) 0 ++ dst.drop n

/-- The loop of `get_user_input` that asks for the access mode.  The outer
`none` means the fuel ran out; the result code is `-1` at end of input. -/
def mode_loop : Nat → Request → List Char → Option (Int × Request × List Char)
  | 0, _, _ => none
  | fuel + 1, req, stdin =>
    match safe_input MAX_BUF stdin with
    | (r, input, rest) =>
      if r < 0 then some (-1, req, rest)
      else
        let input0 := input.headD (Char.ofNat 0)
        if input.length ≠ 1 ∨ (input0 ≠ 'r' ∧ input0 ≠ 'w') then mode_loop fuel req rest
        else some (0, { req with mode := input0 }, rest)

/-- The loop of `get_user_input` that asks for the number of bytes to read. -/
def bytes_loop : Nat → Request → List Char → Option (Int × Request × List Char)
  | 0, _, _ => none
  | fuel + 1, req, stdin =>
    match safe_input MAX_BUF stdin with
    | (r, input, rest) =>
      if r < 0 then some (-1, req, rest)
      else
        let req := { req with bytes := atoi input }
        if req.bytes ≤ 0 ∨ req.bytes ≥ (MAX_BUF : Int) then bytes_loop fuel req rest
        else some (0, req, rest)

/-- The function `get_user_input(req)`: the result code (0 or `-1`), the
request as filled and the input left.  `fname` is what the `MAX_FILENAME`
bytes of `req->filename` hold on entry (`main` declares `Request req;` and
does not initialise it); the `filename` of the result is the string these
bytes hold after the `strncpy`, read up to the first NUL or to the end of the
array.  Each loop gets one unit of fuel per character of input left, plus
one; `none` would mean the fuel ran out. -/
def get_user_input (req : Request) (fname : List Char) (stdin : List Char) :
    Option (Int × Request × List Char) :=
  match safe_input MAX_BUF stdin with
  | (r, input, rest) =>
    if r < 0 then some (-1, req, rest)
    else if input.length = 0 ∨ input.length ≥ MAX_FILENAME then some (-1, req, rest)
    else
      let req := { req with
        filename := String.mk (cstr (strncpy_chars fname input (MAX_FILENAME - 1))) }
      match mode_loop (rest.length + 1) req rest with
      | none => none
      | some (r, req, rest) =>
        if r < 0 then some (-1, req, rest)
        else if req.mode = 'r' then bytes_loop (rest.length + 1) req rest
        else
          match safe_input MAX_BUF rest with
          | (r, input, rest) =>
            if r < 0 then some (-1, req, rest)
            else
              let req := { req with bytes := (input.length : Int) }
              if req.bytes ≥ (MAX_BUF : Int) then some (-1, req, rest)
              else
                some (0, { req with
                  data := strncpy req.data (input.map Char.toNat) (MAX_BUF - 1) }, rest)

/-! ### One operation of the session loop -/

/-- How an `open` of the rendezvous channel ends: a descriptor, `-1` with
`errno == ENOENT`, or `-1` with another `errno`. -/
inductive OpenRes where
  | ok
  | enoent
  | eother
  deriving DecidableEq, Repr

/-- What the rest of the system does during one operation of the client:
the outcome of each `open` of the rendezvous channel (by the number of
failed attempts before it), whether the request is written in full, the
response read from the reply channel (`none`: a short or failed read), and
the user's answer to "another operation?". -/
structure Env where
  server_open : Nat → OpenRes
  send_ok : Bool
  reply : Option Response
  answer : Char

/-- How the body of `while (running)` is left. -/
inductive Control where
  /-- By `continue`, or by reaching the end of the body. -/
  | again
  /-- By `break`. -/
  | leave
  /-- By `exit(code)`. -/
  | exit (code : Int)
  deriving DecidableEq, Repr

/-- How the connect loop is left. -/
inductive Connect where
  /-- By `break` (a descriptor) or by its condition (no descriptor). -/
  | done (retries : Nat) (server_fd : Option Fd)
  /-- By `exit(code)`. -/
  | exited (code : Int)
  deriving DecidableEq, Repr

/-- Whether a call is an attempt to open the rendezvous channel for writing. -/
def is_connect_attempt : Call → Bool
  | .openFifo p .O_WRONLY _ => p == SERVER_FIFO
  | _ => false

/-- The calls of `k` passes through the connect loop that found no rendezvous
channel: the failed `open`, the message, and the `sleep(1)`. -/
def failed_attempts : Nat → List Call
  | 0 => []
  | k + 1 =>
    [.openFifo SERVER_FIFO .O_WRONLY false,
     .printf "Server not available, retrying... (%d/%d)\n", .sleep 1] ++ failed_attempts k

/-- The loop `while (retries < MAX_RETRIES)` of `main`.  `none` means the fuel
ran out. -/
def connect_loop (env : Env) : Nat → World → Nat → Option (World × Connect)
  | 0, w, retries =>
    if retries < MAX_RETRIES then none else some (w, .done retries none)
  | fuel + 1, w, retries =>
    if retries < MAX_RETRIES then
      match env.server_open retries with
      | .ok =>
        some ((w.log (.openFifo SERVER_FIFO .O_WRONLY true)).log
          (.printf "Connected to server FIFO '%s'.\n"), .done retries (some ⟨SERVER_FIFO⟩))
      | .eother =>
        some ((w.log (.openFifo SERVER_FIFO .O_WRONLY false)).log
          (.perror "Cannot open server FIFO"), .exited 1)
      | .enoent =>
        connect_loop env fuel
          (((w.log (.openFifo SERVER_FIFO .O_WRONLY false)).log
            (.printf "Server not available, retrying... (%d/%d)\n")).log (.sleep 1))
          (retries + 1)
    else some (w, .done retries none)

/-- The body of the session loop from the connect attempts on (the request
has been read from the user).  `none` means the fuel of the connect loop ran
out. -/
def serve_request (env : Env) (w : World) (c : Client) (req : Request) :
    Option (World × Control) :=
  match connect_loop env MAX_RETRIES w 0 with
  | none => none
  | some (w, .exited code) => some (run_atexit w c, .exit code)
  | some (w, .done retries server_fd) =>
    if retries = MAX_RETRIES then
      some (w.log (.printf "Server not responding\n"), .again)
    else
      let sent := server_fd.isSome && env.send_ok
      let w := w.log (.sendRequest SERVER_FIFO req sent)
      if !sent then
        some (((w.log (.perror "Failed to send request")).log
          (.close (server_fd.map Fd.path))).log
          (.printf "Server FIFO '%s' closed after failed write.\n"), .again)
      else
        let w := (w.log (.close (server_fd.map Fd.path))).log
          (.printf "Request sent and server FIFO '%s' closed.\n")
        match sys_open_fifo w c.client_fifo .O_RDONLY with
        | (w, none) => some (w.log (.perror "Cannot open client FIFO"), .again)
        | (w, some client_fd) =>
          let w := w.log (.printf "Client FIFO '%s' opened for reading response.\n")
          match env.reply with
          | none =>
            some ((((w.log (.recv client_fd.path false)).log
              (.perror "Failed to read response")).log (.close (some client_fd.path))).log
              (.printf "Client FIFO '%s' closed after failed read.\n"), .again)
          | some resp =>
            let w := (((w.log (.recv client_fd.path true)).log
              (.close (some client_fd.path))).log
              (.printf "Response received and client FIFO '%s' closed.\n")).log
              (.printf "\nOperation Result:\n")
            let w :=
              if resp.status = 0 then
                if req.mode = 'r' then w.log (.printf "Successfully read %d bytes:\n%.*s\n")
                else w.log (.printf "Successfully wrote %d bytes\n")
              else
                w.log (.printf
                  "Operation failed: File does not exist or cannot be accessed.\n")
            let w := w.log (.printf "\nDo you want to perform another operation? (y/n): ")
            if env.answer ≠ 'y' ∧ env.answer ≠ 'Y' then some (w, .leave)
            else some (w, .again)

/-! ## Concrete scenarios -/

/-- A machine with one seven-byte file and the reply channel of client 42. -/
def demo_world : World :=
  ⟨[("a.txt", [1, 2, 3, 4, 5, 6, 7])], [server_client_fifo 42], [], [], false, false, none, []⟩

/-- The same machine when the kernel accepts three bytes per `write`. -/
def short_write_world : World :=
  { demo_world with wlimit := some 3 }

/-- The same machine without any reply channel. -/
def lonely_world : World :=
  { demo_world with fifos := [] }

/-- Client 42 asks for the first five bytes of `a.txt`. -/
def demo_read : Request :=
  ⟨"a.txt", 'r', 5, List.replicate MAX_BUF 0, 42⟩

/-- Client 42 writes five bytes to `a.txt`. -/
def demo_write : Request :=
  ⟨"a.txt", 'w', 5, [9, 9, 9, 9, 9] ++ List.replicate 1019 0, 42⟩

/-- A request whose mode byte is neither `r` nor `w`. -/
def demo_other_mode : Request :=
  ⟨"a.txt", 'x', 5, List.replicate MAX_BUF 0, 42⟩

/-- The client process 42 once its reply channel exists. -/
def demo_client : Client :=
  ⟨client_fifo_name 42, true⟩

/-- A machine that holds the reply channel of client 42 and nothing else. -/
def client_world : World :=
  ⟨[], [client_fifo_name 42], [], [], false, false, none, []⟩

/-- A system in which the rendezvous channel never exists. -/
def absent_server : Env :=
  ⟨fun _ => .enoent, true, none, 'n'⟩

/-- A system whose rendezvous channel appears before the second attempt and
whose server then answers. -/
def late_server : Env :=
  ⟨fun i => if i = 1 then .ok else .enoent, true, some Response.zero, 'n'⟩

/-- The machine of `demo_world` when every `read` fails. -/
def read_fault_world : World :=
  { demo_world with rfault := true }

/-- The machine of `demo_world` when every `write` fails. -/
def write_fault_world : World :=
  { demo_world with wfault := true }

/-- A file-name array that holds NUL in all its `MAX_FILENAME` bytes. -/
def blank_filename : List Char :=
  List.replicate MAX_FILENAME (Char.ofNat 0)

/-- A request buffer before `get_user_input` fills it. -/
def blank_request : Request :=
  ⟨"", Char.ofNat 0, 0, List.replicate MAX_BUF 0, 42⟩

/-! # Theorems -/

/-! ## Facts about the kernel model -/

theorem setFile_cons (e : String × List Nat) (es : List (String × List Nat)) (p : String)
    (c : List Nat) :
    setFile (e :: es) p c = (if e.1 = p then (e.1, c) else e) :: setFile es p c := rfl

theorem lookup_setFile (fs : List (String × List Nat)) (p : String) (c old : List Nat)
    (h : fs.lookup p = some old) : (setFile fs p c).lookup p = some c := by
  induction fs with
  | nil => simp at h
  | cons e es ih =>
    obtain ⟨k, v⟩ := e
    rw [setFile_cons]
    by_cases hk : k = p
    · subst hk
      rw [if_pos rfl]
      simp [List.lookup]
    · have hk2 : (p == k) = false := by
        simpa using fun h : p = k => hk h.symm
      rw [if_neg hk]
      simp only [List.lookup, hk2] at h ⊢
      exact ih h

theorem size_t_of_int_eq (n : Int) (h0 : 0 ≤ n) (h1 : n < 2 ^ 64) :
    size_t_of_int n = n.toNat := by
  unfold size_t_of_int
  rw [Int.emod_eq_of_lt h0 h1]

theorem size_t_of_bytes (n : Int) (h0 : 0 < n) (h1 : n < MAX_BUF) :
    size_t_of_int n = n.toNat := by
  apply size_t_of_int_eq n (le_of_lt h0)
  have : (MAX_BUF : Int) = 1024 := rfl
  omega

theorem natCast_ne_neg_one (k : Nat) : ¬ ((k : Int) = -1) := by omega

theorem sys_open_fifo_ok (w : World) (p : String) (flag : OFlag) (h : p ∈ w.fifos) :
    sys_open_fifo w p flag = (w.log (.openFifo p flag true), some ⟨p⟩) := by
  simp [sys_open_fifo, h]

theorem sys_open_fifo_fail (w : World) (p : String) (flag : OFlag) (h : p ∉ w.fifos) :
    sys_open_fifo w p flag = (w.log (.openFifo p flag false), none) := by
  simp [sys_open_fifo, h]

theorem sys_open_rd_ok (w : World) (p : String) (content : List Nat)
    (hfile : w.files.lookup p = some content) (hopen : p ∉ w.rdeny) :
    sys_open w p .O_RDONLY = (w.log (.openFile p .O_RDONLY true), some ⟨p⟩) := by
  simp [sys_open, hfile, hopen]

theorem sys_open_wr_ok (w : World) (p : String) (content : List Nat)
    (hfile : w.files.lookup p = some content) (hopen : p ∉ w.wdeny) :
    sys_open w p .O_WRONLY = (w.log (.openFile p .O_WRONLY true), some ⟨p⟩) := by
  simp [sys_open, hfile, hopen]

theorem sys_mkfifo_created (w : World) (p : String) (w2 : World) (r : Int)
    (h : sys_mkfifo w p = (w2, r)) (hr : r ≠ -1) : p ∈ w2.fifos := by
  unfold sys_mkfifo at h
  split at h
  · simp only [Prod.mk.injEq] at h
    exact absurd h.2.symm hr
  · simp only [Prod.mk.injEq] at h
    rw [← h.1]
    simp [World.log]

/-! ## Facts about `process_file_operation` and `handle_client_request` -/

theorem pfo_read_ok (w : World) (f : String) (data : List Nat) (bytes : Int) (resp : Response)
    (content : List Nat)
    (hfile : w.files.lookup f = some content) (hopen : f ∉ w.rdeny)
    (hread : w.rfault = false) :
    process_file_operation w f 'r' data bytes resp =
      ({ w with trace := w.trace ++
          [.openFile f .O_RDONLY true,
           .read f (size_t_of_int bytes) (content.take (size_t_of_int bytes)).length,
           .close (some f)] },
       { resp with
          data := content.take (size_t_of_int bytes)
            ++ resp.data.drop (content.take (size_t_of_int bytes)).length
          bytes := (content.take (size_t_of_int bytes)).length }, 0) := by
  have hfile1 : (w.log (.openFile f .O_RDONLY true)).files.lookup f = some content := hfile
  have hread1 : (w.log (.openFile f .O_RDONLY true)).rfault = false := hread
  unfold process_file_operation
  rw [if_pos rfl, sys_open_rd_ok w f content hfile hopen]
  simp only [sys_read, hfile1, hread1, natCast_ne_neg_one, if_false, Bool.false_eq_true]
  simp [sys_close, World.log, hread]

theorem pfo_write_ok (w : World) (f : String) (data : List Nat) (bytes : Int) (resp : Response)
    (content : List Nat)
    (hfile : w.files.lookup f = some content) (hopen : f ∉ w.wdeny)
    (hwrite : w.wfault = false) :
    process_file_operation w f 'w' data bytes resp =
      ({ w with
          files := setFile w.files f
            (data.take (write_len w (size_t_of_int bytes))
              ++ content.drop (data.take (write_len w (size_t_of_int bytes))).length)
          trace := w.trace ++
            [.openFile f .O_WRONLY true,
             .write f (size_t_of_int bytes)
               (data.take (write_len w (size_t_of_int bytes))).length,
             .close (some f)] },
       { resp with bytes := (data.take (write_len w (size_t_of_int bytes))).length }, 0) := by
  have hfile1 : (w.log (.openFile f .O_WRONLY true)).files.lookup f = some content := hfile
  have hwrite1 : (w.log (.openFile f .O_WRONLY true)).wfault = false := hwrite
  have hlen1 : ∀ n, write_len (w.log (.openFile f .O_WRONLY true)) n = write_len w n :=
    fun _ => rfl
  unfold process_file_operation
  rw [if_neg (by decide), if_pos rfl, sys_open_wr_ok w f content hfile hopen]
  simp only [sys_write, hfile1, hwrite1, hlen1, natCast_ne_neg_one, if_false,
    Bool.false_eq_true]
  simp [sys_close, World.log, hwrite]

theorem pfo_write_fault (w : World) (f : String) (data : List Nat) (bytes : Int)
    (resp : Response) (content : List Nat)
    (hfile : w.files.lookup f = some content) (hopen : f ∉ w.wdeny)
    (hwrite : w.wfault = true) :
    process_file_operation w f 'w' data bytes resp =
      ({ w with trace := w.trace ++
          [.openFile f .O_WRONLY true, .write f (size_t_of_int bytes) (-1),
           .close (some f)] },
       resp, ERR_WRITE) := by
  have hfile1 : (w.log (.openFile f .O_WRONLY true)).files.lookup f = some content := hfile
  have hwrite1 : (w.log (.openFile f .O_WRONLY true)).wfault = true := hwrite
  unfold process_file_operation
  rw [if_neg (by decide), if_pos rfl, sys_open_wr_ok w f content hfile hopen]
  simp only [sys_write, hfile1, hwrite1, if_true]
  simp [sys_close, World.log, hwrite]

theorem pfo_other_mode (w : World) (f : String) (mode : Char) (data : List Nat) (bytes : Int)
    (resp : Response) (hmode : mode ≠ 'r' ∧ mode ≠ 'w') :
    process_file_operation w f mode data bytes resp =
      ({ w with trace := w.trace ++ [.close none] }, resp, 0) := by
  simp [process_file_operation, hmode.1, hmode.2, sys_close, World.log]

theorem handle_reply (w : World) (req : Request)
    (h : server_client_fifo req.client_pid ∈ w.fifos) :
    handle_client_request w req =
      match process_file_operation
          (w.log (.openFifo (server_client_fifo req.client_pid) .O_WRONLY true))
          req.filename req.mode req.data req.bytes Response.zero with
      | (w2, resp, result) =>
        sys_close (sys_send w2 ⟨server_client_fifo req.client_pid⟩
          (if result = ERR_FILE_OPEN then { resp with status := -1 }
           else { resp with status := if result = 0 then 0 else -1 }))
          (some ⟨server_client_fifo req.client_pid⟩) := by
  unfold handle_client_request
  simp only [sys_open_fifo_ok w _ _ h]

theorem take_take_length (l : List Nat) (k : Nat) : l.take (l.take k).length = l.take k := by
  rw [List.length_take]
  rcases Nat.le_total k l.length with h | h
  · rw [min_eq_left h]
  · rw [min_eq_right h, List.take_of_length_le h, List.take_of_length_le (le_refl _)]

/-! ## Facts about the reply-channel name -/

theorem digitChar_val : ∀ k : Nat, k < 10 → (Nat.digitChar k).toNat - 48 = k := by decide

theorem digitChar_ne_minus : ∀ k : Nat, k < 10 → Nat.digitChar k ≠ '-' := by decide

/-- The digits `toDigitsCore` puts in front of the accumulator spell `n`,
none of them is a minus sign, and there is at least one. -/
theorem toDigitsCore_spec (fuel : Nat) : ∀ (n : Nat) (acc : List Char), n < fuel →
    ∃ L : List Char, Nat.toDigitsCore 10 fuel n acc = L ++ acc
      ∧ L.foldl (fun a c => 10 * a + (c.toNat - 48)) 0 = n
      ∧ (∀ c ∈ L, c ≠ '-') ∧ L ≠ [] := by
  induction fuel with
  | zero => intro n acc h; omega
  | succ fuel ih =>
    intro n acc h
    have hmod : n % 10 < 10 := Nat.mod_lt _ (by decide)
    by_cases hdiv : n / 10 = 0
    · refine ⟨[Nat.digitChar (n % 10)], ?_, ?_, ?_, by simp⟩
      · simp [Nat.toDigitsCore, hdiv]
      · simp only [List.foldl, digitChar_val _ hmod]
        omega
      · intro c hc
        rw [List.mem_singleton] at hc
        rw [hc]
        exact digitChar_ne_minus _ hmod
    · have hlt : n / 10 < fuel := by omega
      obtain ⟨L, hL, hval, hminus, _⟩ := ih (n / 10) (Nat.digitChar (n % 10) :: acc) hlt
      refine ⟨L ++ [Nat.digitChar (n % 10)], ?_, ?_, ?_, by simp⟩
      · simp [Nat.toDigitsCore, hdiv, hL]
      · rw [List.foldl_append, hval]
        simp only [List.foldl, digitChar_val _ hmod]
        omega
      · intro c hc
        rw [List.mem_append, List.mem_singleton] at hc
        rcases hc with hc | hc
        · exact hminus c hc
        · rw [hc]; exact digitChar_ne_minus _ hmod

theorem toDigits_spec (n : Nat) :
    (Nat.toDigits 10 n).foldl (fun a c => 10 * a + (c.toNat - 48)) 0 = n
      ∧ (∀ c ∈ Nat.toDigits 10 n, c ≠ '-') ∧ Nat.toDigits 10 n ≠ [] := by
  obtain ⟨L, hL, h⟩ := toDigitsCore_spec (n + 1) n [] (Nat.lt_succ_self n)
  rw [List.append_nil] at hL
  unfold Nat.toDigits
  rw [hL]
  exact h

theorem toDigits_injective (n m : Nat) (h : Nat.toDigits 10 n = Nat.toDigits 10 m) : n = m := by
  rw [← (toDigits_spec n).1, ← (toDigits_spec m).1, h]

theorem fmt_d_injective (p q : Int) (h : fmt_d p = fmt_d q) : p = q := by
  unfold fmt_d at h
  by_cases hp : p < 0 <;> by_cases hq : q < 0
  · rw [if_pos hp, if_pos hq] at h
    have := toDigits_injective _ _ (List.cons.inj h).2
    omega
  · rw [if_pos hp, if_neg hq] at h
    obtain ⟨_, hm, hne⟩ := toDigits_spec q.toNat
    cases hd : Nat.toDigits 10 q.toNat with
    | nil => exact absurd hd hne
    | cons c cs =>
      rw [hd] at h hm
      exact absurd (List.cons.inj h).1.symm (hm c (List.mem_cons_self _ _))
  · rw [if_neg hp, if_pos hq] at h
    obtain ⟨_, hm, hne⟩ := toDigits_spec p.toNat
    cases hd : Nat.toDigits 10 p.toNat with
    | nil => exact absurd hd hne
    | cons c cs =>
      rw [hd] at h hm
      exact absurd (List.cons.inj h).1 (hm c (List.mem_cons_self _ _))
  · rw [if_neg hp, if_neg hq] at h
    have := toDigits_injective _ _ h
    omega

theorem toDigits_length_le (n : Nat) (h : n < 10 ^ 10) : (Nat.toDigits 10 n).length ≤ 10 :=
  Nat.toDigitsCore_length 10 (by decide) (n + 1) n 10 h (by decide)

theorem fmt_d_length (p : Int) (h : INT_MIN ≤ p ∧ p ≤ INT_MAX) : (fmt_d p).length ≤ 11 := by
  have h1 : INT_MIN = -2147483648 := rfl
  have h2 : INT_MAX = 2147483647 := rfl
  unfold fmt_d
  split
  · have := toDigits_length_le p.natAbs (by omega)
    simp only [List.length_cons]
    omega
  · have := toDigits_length_le p.toNat (by omega)
    omega

theorem fifo_name_injective (p q : Int) (hp : INT_MIN ≤ p ∧ p ≤ INT_MAX)
    (hq : INT_MIN ≤ q ∧ q ≤ INT_MAX)
    (h : snprintf_d MAX_FILENAME "/tmp/client_".toList p "_fifo".toList
        = snprintf_d MAX_FILENAME "/tmp/client_".toList q "_fifo".toList) : p = q := by
  have hlp := fmt_d_length p hp
  have hlq := fmt_d_length q hq
  unfold snprintf_d at h
  have h := congrArg String.data h
  simp only at h
  have hpre : "/tmp/client_".toList.length = 12 := by decide
  have hpost : "_fifo".toList.length = 5 := by decide
  have hmax : MAX_FILENAME - 1 = 255 := by decide
  rw [List.take_of_length_le (by simp only [List.length_append, hpre, hpost, hmax]; omega),
    List.take_of_length_le (by simp only [List.length_append, hpre, hpost, hmax]; omega)] at h
  exact fmt_d_injective p q (List.append_cancel_left (List.append_cancel_right h))


/-! ## Facts about `cleanup` -/

theorem lookup_filter_ne (fs : List (String × List Nat)) (p : String) :
    (fs.filter (fun e => e.1 ≠ p)).lookup p = none := by
  induction fs with
  | nil => rfl
  | cons e es ih =>
    obtain ⟨k, v⟩ := e
    by_cases hk : k = p
    · rw [List.filter_cons_of_neg (by simp [hk])]
      exact ih
    · have hk2 : (p == k) = false := by
        simpa using fun h : p = k => hk h.symm
      rw [List.filter_cons_of_pos (by simp [hk])]
      simp only [List.lookup, hk2]
      exact ih

theorem sys_unlink_absent (w : World) (p : String)
    (h1 : p ∉ w.fifos) (h2 : w.files.lookup p = none) :
    sys_unlink w p = (w.log (.unlink p (-1)), -1) := by
  simp [sys_unlink, h1, h2]

theorem cleanup_absent (w : World) (c : Client)
    (h1 : c.client_fifo ∉ w.fifos) (h2 : w.files.lookup c.client_fifo = none) :
    cleanup w c = { w with trace := w.trace ++
      [.unlink c.client_fifo (-1), .perror "Failed to delete client FIFO"] } := by
  unfold cleanup
  rw [sys_unlink_absent w _ h1 h2]
  simp [World.log]

theorem cleanup_leaves_absent (w : World) (c : Client) :
    c.client_fifo ∉ (cleanup w c).fifos ∧ (cleanup w c).files.lookup c.client_fifo = none := by
  by_cases h : c.client_fifo ∈ w.fifos ∨ (w.files.lookup c.client_fifo).isSome
  · have hu : sys_unlink w c.client_fifo =
        ({ w with
            fifos := w.fifos.filter (fun p => p ≠ c.client_fifo)
            files := w.files.filter (fun e => e.1 ≠ c.client_fifo) }.log
          (.unlink c.client_fifo 0), 0) := by
      rcases h with h | h
      · simp [sys_unlink, h]
      · simp [sys_unlink, h]
    unfold cleanup
    rw [hu]
    simp only [if_true, World.log]
    exact ⟨by simp, lookup_filter_ne _ _⟩
  · have h1 : c.client_fifo ∉ w.fifos := fun hh => h (Or.inl hh)
    have h2 : w.files.lookup c.client_fifo = none := by
      cases hl : w.files.lookup c.client_fifo with
      | none => rfl
      | some v => exact absurd (Or.inr (by simp [hl])) h
    rw [cleanup_absent w c h1 h2]
    exact ⟨h1, h2⟩


/-! ## Facts about the connect loop -/

theorem connect_loop_all_enoent (env : Env) (w : World)
    (h : ∀ i, i < MAX_RETRIES → env.server_open i = .enoent) :
    connect_loop env MAX_RETRIES w 0
      = some ({ w with trace := w.trace ++ failed_attempts 3 }, .done MAX_RETRIES none) := by
  have h0 := h 0 (by decide)
  have h1 := h 1 (by decide)
  have h2 := h 2 (by decide)
  simp [connect_loop, MAX_RETRIES, h0, h1, h2, World.log, failed_attempts]

theorem connect_loop_success (env : Env) (w : World) (k : Nat) (hk : k < MAX_RETRIES)
    (hfail : ∀ i, i < k → env.server_open i = .enoent) (hok : env.server_open k = .ok) :
    connect_loop env MAX_RETRIES w 0
      = some ({ w with trace := w.trace ++ failed_attempts k ++
          [.openFifo SERVER_FIFO .O_WRONLY true, .printf "Connected to server FIFO '%s'.\n"] },
          .done k (some ⟨SERVER_FIFO⟩)) := by
  have h3 : MAX_RETRIES = 3 := rfl
  rw [h3] at hk
  interval_cases k
  · simp [connect_loop, MAX_RETRIES, hok, World.log, failed_attempts]
  · have h0 := hfail 0 (by decide)
    simp [connect_loop, MAX_RETRIES, hok, h0, World.log, failed_attempts]
  · have h0 := hfail 0 (by decide)
    have h1 := hfail 1 (by decide)
    simp [connect_loop, MAX_RETRIES, hok, h0, h1, World.log, failed_attempts]

theorem serve_after_connect (env : Env) (w w1 : World) (c : Client) (req : Request) (k : Nat)
    (hk : k < MAX_RETRIES)
    (hc : connect_loop env MAX_RETRIES w 0 = some (w1, .done k (some ⟨SERVER_FIFO⟩))) :
    ∃ (rest : List Call) (ctl : Control),
      serve_request env w c req = some ({ w1 with trace := w1.trace ++ rest }, ctl)
      ∧ rest.head? = some (.sendRequest SERVER_FIFO req env.send_ok)
      ∧ (∀ x ∈ rest, is_connect_attempt x = false)
      ∧ Call.printf "Server not responding\n" ∉ rest
      ∧ (ctl = .again ∨ ctl = .leave) := by
  have hne : ¬ k = MAX_RETRIES := Nat.ne_of_lt hk
  unfold serve_request
  rw [hc]
  simp only [hne, if_false, Option.isSome_some, Bool.true_and]
  by_cases hs : env.send_ok = true
  · simp only [hs, Bool.not_true, Bool.false_eq_true, if_false]
    by_cases hf : c.client_fifo ∈ w1.fifos
    · have hf1 : c.client_fifo ∈ (((w1.log (.sendRequest SERVER_FIFO req true)).log
          (.close (Option.map Fd.path (some ⟨SERVER_FIFO⟩)))).log
          (.printf "Request sent and server FIFO '%s' closed.\n")).fifos := hf
      rw [sys_open_fifo_ok _ _ _ hf1]
      cases hr : env.reply with
      | none =>
        dsimp only
        simp only [World.log, List.append_assoc]
        refine ⟨_, _, rfl, rfl, ?_, ?_, ?_⟩
        · simp [is_connect_attempt]
        · simp
        · simp
      | some resp =>
        dsimp only
        by_cases ha : env.answer ≠ 'y' ∧ env.answer ≠ 'Y'
        · rw [if_pos ha]
          by_cases hst : resp.status = 0 <;> by_cases hm : req.mode = 'r' <;>
          simp only [hst, hm, if_true, if_false, World.log, List.append_assoc] <;>
          · refine ⟨_, _, rfl, rfl, ?_, ?_, ?_⟩
            · simp [is_connect_attempt]
            · simp
            · simp
        · rw [if_neg ha]
          by_cases hst : resp.status = 0 <;> by_cases hm : req.mode = 'r' <;>
          simp only [hst, hm, if_true, if_false, World.log, List.append_assoc] <;>
          · refine ⟨_, _, rfl, rfl, ?_, ?_, ?_⟩
            · simp [is_connect_attempt]
            · simp
            · simp
    · have hf1 : c.client_fifo ∉ (((w1.log (.sendRequest SERVER_FIFO req true)).log
          (.close (Option.map Fd.path (some ⟨SERVER_FIFO⟩)))).log
          (.printf "Request sent and server FIFO '%s' closed.\n")).fifos := hf
      rw [sys_open_fifo_fail _ _ _ hf1]
      dsimp only
      simp only [World.log, List.append_assoc]
      refine ⟨_, _, rfl, rfl, ?_, ?_, ?_⟩
      · simp [is_connect_attempt]
      · simp
      · simp
  · have hs2 : env.send_ok = false := by simpa using hs
    simp only [hs2, Bool.not_false, if_true]
    simp only [World.log, List.append_assoc]
    refine ⟨_, _, rfl, rfl, ?_, ?_, ?_⟩
    · simp [is_connect_attempt]
    · simp
    · simp

theorem failed_attempts_count (k : Nat) :
    (failed_attempts k).countP is_connect_attempt = k := by
  induction k with
  | zero => rfl
  | succ k ih =>
    simp only [failed_attempts, List.countP_append, ih]
    have : List.countP is_connect_attempt
        [.openFifo SERVER_FIFO .O_WRONLY false,
         .printf "Server not available, retrying... (%d/%d)\n", .sleep 1] = 1 := by decide
    omega

/-! ## Facts about reading the user's input -/

theorem fgets_chars_append (n : Nat) (s : List Char) :
    (fgets_chars n s).1 ++ (fgets_chars n s).2 = s := by
  induction n generalizing s with
  | zero => rfl
  | succ n ih =>
    cases s with
    | nil => rfl
    | cons c s =>
      by_cases hc : c = '\n'
      · simp [fgets_chars, hc]
      · simp [fgets_chars, hc, ih s]

theorem fgets_chars_length (n : Nat) (s : List Char) : (fgets_chars n s).1.length ≤ n := by
  induction n generalizing s with
  | zero => simp [fgets_chars]
  | succ n ih =>
    cases s with
    | nil => simp [fgets_chars]
    | cons c s =>
      by_cases hc : c = '\n'
      · simp [fgets_chars, hc]
      · have := ih s
        simp [fgets_chars, hc]
        omega

theorem fgets_chars_consumes (n : Nat) (c : Char) (s : List Char) :
    (fgets_chars (n + 1) (c :: s)).2.length < (c :: s).length := by
  have h := congrArg List.length (fgets_chars_append n s)
  rw [List.length_append] at h
  by_cases hc : c = '\n'
  · simp [fgets_chars, hc]
  · simp [fgets_chars, hc]
    omega

/-- What `safe_input` returns: code 0 or `-1`, a string of at most `size - 1`
characters, and a suffix of the input; with code 0 some input was consumed. -/
theorem safe_input_spec (size : Nat) (hsize : 2 ≤ size) (s : List Char) :
    ((safe_input size s).1 = 0 ∧ (safe_input size s).2.2.length < s.length
      ∨ (safe_input size s).1 = -1 ∧ (safe_input size s).2.2 = [] ∧ s = [])
    ∧ (safe_input size s).2.1.length ≤ size - 1
    ∧ (safe_input size s).2.2 <:+ s := by
  cases s with
  | nil =>
    refine ⟨Or.inr ⟨rfl, rfl, rfl⟩, ?_, ?_⟩
    · simp [safe_input, fgets]
    · simp [safe_input, fgets]
  | cons c s =>
    obtain ⟨m, rfl⟩ : ∃ m, size = m + 2 := ⟨size - 2, by omega⟩
    have hlen := fgets_chars_length (m + 1) (c :: s)
    have happ := fgets_chars_append (m + 1) (c :: s)
    have hcons := fgets_chars_consumes m c s
    refine ⟨Or.inl ⟨rfl, ?_⟩, ?_, ?_⟩
    · simpa [safe_input, fgets] using hcons
    · have h1 : ∀ (k : Nat) (l : List Char), (l.take k).length ≤ l.length := by
        intro k l
        rw [List.length_take]
        exact Nat.min_le_right _ _
      have h2 : (cstr (fgets_chars (m + 1) (c :: s)).1).length
          ≤ (fgets_chars (m + 1) (c :: s)).1.length :=
        (List.takeWhile_sublist _).length_le
      have e : m + 2 - 1 = m + 1 := rfl
      simp only [safe_input, fgets, e]
      exact le_trans (h1 _ _) (le_trans h2 hlen)
    · simp only [safe_input, fgets, Nat.add_sub_cancel]
      exact ⟨_, happ⟩

theorem fgets_chars_line (line tail : List Char) (hnl : '\n' ∉ line) :
    ∀ n, line.length < n → fgets_chars n (line ++ '\n' :: tail) = (line ++ ['\n'], tail) := by
  induction line with
  | nil =>
    intro n hn
    obtain ⟨m, rfl⟩ : ∃ m, n = m + 1 := ⟨n - 1, by simp at hn; omega⟩
    simp [fgets_chars]
  | cons c cs ih =>
    intro n hn
    obtain ⟨m, rfl⟩ : ∃ m, n = m + 1 := ⟨n - 1, by simp at hn; omega⟩
    have hc : c ≠ '\n' := fun h => hnl (h ▸ List.mem_cons_self _ _)
    have hcs : '\n' ∉ cs := fun h => hnl (List.mem_cons_of_mem _ h)
    have hlen : cs.length < m := by simp at hn; omega
    simp [fgets_chars, hc, ih hcs m hlen]

/-- What `safe_input` makes of an ordinary line: a line without NUL that is
shorter than `size - 1` and ends in a newline is returned whole, without the
newline, and the input after it is left. -/
theorem safe_input_line (size : Nat) (line tail : List Char)
    (hnl : '\n' ∉ line) (hnul : Char.ofNat 0 ∉ line) (hlen : line.length < size - 1) :
    safe_input size (line ++ '\n' :: tail) = (0, line, tail) := by
  have hfg : fgets size (line ++ '\n' :: tail) = (some (line ++ ['\n']), tail) := by
    have h := fgets_chars_line line tail hnl (size - 1) hlen
    cases line with
    | nil => simp [fgets, h] at h ⊢
    | cons c cs => simp only [fgets, List.cons_append] at h ⊢; rw [h]
  have hcstr : cstr (line ++ ['\n']) = line ++ ['\n'] := by
    unfold cstr
    rw [List.takeWhile_eq_self_iff]
    intro c hc
    rw [List.mem_append, List.mem_singleton] at hc
    rcases hc with hc | hc
    · simpa using fun h : c = Char.ofNat 0 => hnul (h ▸ hc)
    · rw [hc]; decide
  have hspan : strcspn (line ++ ['\n']) ['\n'] = line.length := by
    unfold strcspn
    have h1 : List.takeWhile (fun c => !(['\n'].contains c)) (line ++ ['\n']) = line := by
      rw [List.takeWhile_append_of_pos]
      · simp
      · intro c hc
        simpa using fun h : c = '\n' => hnl (h ▸ hc)
    rw [h1]
  unfold safe_input
  rw [hfg]
  simp only [hcstr, hspan, List.take_left' rfl]

theorem MAX_BUF_ge_two : 2 ≤ MAX_BUF := by decide

theorem mode_loop_spec (fuel : Nat) : ∀ (req : Request) (s : List Char) (r1 : Int)
    (req1 : Request) (rest : List Char),
    mode_loop fuel req s = some (r1, req1, rest) → ¬ r1 < 0 →
    (req1.mode = 'r' ∨ req1.mode = 'w') ∧ req1.filename = req.filename
      ∧ rest <:+ s := by
  induction fuel with
  | zero => intro req s r1 req1 rest h; simp [mode_loop] at h
  | succ fuel ih =>
    intro req s r1 req1 rest h hr1
    have hsuf := (safe_input_spec MAX_BUF MAX_BUF_ge_two s).2.2
    rcases hsi : safe_input MAX_BUF s with ⟨r, input, rest0⟩
    rw [hsi] at hsuf
    simp only [mode_loop, hsi] at h
    by_cases hr : r < 0
    · rw [if_pos hr] at h
      simp only [Option.some.injEq, Prod.mk.injEq] at h
      exact absurd (h.1 ▸ (by decide : (-1 : Int) < 0)) hr1
    · rw [if_neg hr] at h
      by_cases hbad : input.length ≠ 1
          ∨ (input.headD (Char.ofNat 0) ≠ 'r' ∧ input.headD (Char.ofNat 0) ≠ 'w')
      · rw [if_pos hbad] at h
        obtain ⟨h1, h2, h3⟩ := ih req rest0 r1 req1 rest h hr1
        exact ⟨h1, h2, h3.trans hsuf⟩
      · rw [if_neg hbad] at h
        simp only [Option.some.injEq, Prod.mk.injEq] at h
        obtain ⟨_, hreq, hrest⟩ := h
        subst hreq hrest
        refine ⟨?_, rfl, hsuf⟩
        by_contra hne
        apply hbad
        right
        exact ⟨fun h => hne (Or.inl h), fun h => hne (Or.inr h)⟩

theorem bytes_loop_spec (fuel : Nat) : ∀ (req : Request) (s : List Char) (req1 : Request)
    (rest : List Char), bytes_loop fuel req s = some (0, req1, rest) →
    0 < req1.bytes ∧ req1.bytes < MAX_BUF ∧ req1.mode = req.mode
      ∧ req1.filename = req.filename := by
  induction fuel with
  | zero => intro req s req1 rest h; simp [bytes_loop] at h
  | succ fuel ih =>
    intro req s req1 rest h
    rcases hsi : safe_input MAX_BUF s with ⟨r, input, rest0⟩
    simp only [bytes_loop, hsi] at h
    by_cases hr : r < 0
    · simp [hr] at h
    · rw [if_neg hr] at h
      by_cases hbad : atoi input ≤ 0 ∨ atoi input ≥ (MAX_BUF : Int)
      · rw [if_pos hbad] at h
        obtain ⟨h1, h2, h3, h4⟩ := ih _ rest0 req1 rest h
        exact ⟨h1, h2, h3, h4⟩
      · rw [if_neg hbad] at h
        simp only [Option.some.injEq, Prod.mk.injEq, true_and] at h
        obtain ⟨hreq, hrest⟩ := h
        subst hreq hrest
        refine ⟨?_, ?_, rfl, rfl⟩
        · show 0 < atoi input
          by_contra hle
          exact hbad (Or.inl (not_lt.mp hle))
        · show atoi input < (MAX_BUF : Int)
          by_contra hge
          exact hbad (Or.inr (not_lt.mp hge))

theorem mode_loop_returns (fuel : Nat) : ∀ (req : Request) (s : List Char), s.length < fuel →
    ∃ res, mode_loop fuel req s = some res := by
  induction fuel with
  | zero => intro req s h; omega
  | succ fuel ih =>
    intro req s hlen
    have hspec := (safe_input_spec MAX_BUF MAX_BUF_ge_two s).1
    rcases hsi : safe_input MAX_BUF s with ⟨r, input, rest0⟩
    rw [hsi] at hspec
    dsimp only at hspec
    simp only [mode_loop, hsi]
    by_cases hr : r < 0
    · rw [if_pos hr]; exact ⟨_, rfl⟩
    · rw [if_neg hr]
      by_cases hbad : input.length ≠ 1
          ∨ (input.headD (Char.ofNat 0) ≠ 'r' ∧ input.headD (Char.ofNat 0) ≠ 'w')
      · rw [if_pos hbad]
        apply ih
        rcases hspec with ⟨_, h2⟩ | ⟨h1, _⟩
        · omega
        · rw [h1] at hr; exact absurd (by decide) hr
      · rw [if_neg hbad]; exact ⟨_, rfl⟩

theorem bytes_loop_returns (fuel : Nat) : ∀ (req : Request) (s : List Char), s.length < fuel →
    ∃ res, bytes_loop fuel req s = some res := by
  induction fuel with
  | zero => intro req s h; omega
  | succ fuel ih =>
    intro req s hlen
    have hspec := (safe_input_spec MAX_BUF MAX_BUF_ge_two s).1
    rcases hsi : safe_input MAX_BUF s with ⟨r, input, rest0⟩
    rw [hsi] at hspec
    dsimp only at hspec
    simp only [bytes_loop, hsi]
    by_cases hr : r < 0
    · rw [if_pos hr]; exact ⟨_, rfl⟩
    · rw [if_neg hr]
      by_cases hbad : atoi input ≤ 0 ∨ atoi input ≥ (MAX_BUF : Int)
      · rw [if_pos hbad]
        apply ih
        rcases hspec with ⟨_, h2⟩ | ⟨h1, _⟩
        · omega
        · rw [h1] at hr; exact absurd (by decide) hr
      · rw [if_neg hbad]; exact ⟨_, rfl⟩

/-- The string a file-name array holds after `strncpy` of a name shorter than
`n`: the name itself, the padding supplying the terminator. -/
theorem cstr_strncpy_chars (dst src : List Char) (n : Nat)
    (hnul : Char.ofNat 0 ∉ src) (hlen : src.length < n) :
    cstr (strncpy_chars dst src n) = src := by
  obtain ⟨m, hm⟩ : ∃ m, n - src.length = m + 1 := ⟨n - src.length - 1, by omega⟩
  unfold cstr strncpy_chars
  rw [List.take_of_length_le (le_of_lt hlen), hm, List.replicate_succ, List.append_assoc,
    List.takeWhile_append_of_pos]
  · simp
  · intro c hc
    simpa using fun h : c = Char.ofNat 0 => hnul (h ▸ hc)

/-- The fuel given to the loops of `get_user_input` always suffices: the
function returns on every input. -/
theorem get_user_input_returns (req0 : Request) (fname : List Char) (stdin : List Char) :
    ∃ res, get_user_input req0 fname stdin = some res := by
  rcases hsi : safe_input MAX_BUF stdin with ⟨r, input, rest0⟩
  simp only [get_user_input, hsi]
  by_cases hr : r < 0
  · rw [if_pos hr]; exact ⟨_, rfl⟩
  rw [if_neg hr]
  by_cases hbad : input.length = 0 ∨ input.length ≥ MAX_FILENAME
  · rw [if_pos hbad]; exact ⟨_, rfl⟩
  rw [if_neg hbad]
  obtain ⟨⟨r1, req1, rest1⟩, hm⟩ := mode_loop_returns (rest0.length + 1)
    { req0 with
      filename := String.mk (cstr (strncpy_chars fname input (MAX_FILENAME - 1))) }
    rest0 (Nat.lt_succ_self _)
  simp only [hm]
  by_cases hr1 : r1 < 0
  · rw [if_pos hr1]; exact ⟨_, rfl⟩
  rw [if_neg hr1]
  by_cases hrd : req1.mode = 'r'
  · rw [if_pos hrd]
    exact bytes_loop_returns _ _ _ (Nat.lt_succ_self _)
  · rw [if_neg hrd]
    rcases hsd : safe_input MAX_BUF rest1 with ⟨r2, line, rest2⟩
    dsimp only
    by_cases hr2 : r2 < 0
    · rw [if_pos hr2]; exact ⟨_, rfl⟩
    rw [if_neg hr2]
    by_cases hlong : (line.length : Int) ≥ (MAX_BUF : Int)
    · rw [if_pos hlong]; exact ⟨_, rfl⟩
    · rw [if_neg hlong]; exact ⟨_, rfl⟩

/-! # The claims -/

/-- Counterexample to C1 as stated: the target exists and is opened, the
reply channel is open, but the `read` fails; `process_file_operation` returns
`ERR_READ` and the Response sent has status `-1`. -/
theorem read_error_reported_failed :
    process_file_operation read_fault_world "a.txt" 'r' demo_read.data 5 Response.zero
      = ({ read_fault_world with
            trace := [.openFile "a.txt" .O_RDONLY true, .read "a.txt" 5 (-1),
              .close (some "a.txt")] },
          Response.zero, ERR_READ)
    ∧ handle_client_request read_fault_world demo_read
      = { read_fault_world with
          trace := [.openFifo "/tmp/client_42_fifo" .O_WRONLY true,
            .openFile "a.txt" .O_RDONLY true, .read "a.txt" 5 (-1), .close (some "a.txt"),
            .send "/tmp/client_42_fifo" ⟨-1, List.replicate MAX_BUF 0, 0⟩,
            .close (some "/tmp/client_42_fifo")] } :=
  ⟨rfl, rfl⟩

/-- Claim C1, amended: for every Read request with `0 < bytes < 1024` whose
target exists and can be opened, whose `read` does not fail and whose
reply channel can be opened, `handle_client_request` opens the reply channel,
opens, reads and closes the target, and sends one Response: status 0, byte
count `min bytes (length of the file)`, and the first byte-count bytes of the
payload equal to the leading bytes of the file.  When the file holds at least
`bytes` bytes the byte count is `bytes`; a shorter file is no error. -/
theorem read_returns_leading_bytes (w : World) (req : Request) (content : List Nat)
    (hmode : req.mode = 'r') (hpos : 0 < req.bytes) (hlt : req.bytes < MAX_BUF)
    (hfile : w.files.lookup req.filename = some content)
    (hopen : req.filename ∉ w.rdeny)
    (hread : w.rfault = false)
    (hfifo : server_client_fifo req.client_pid ∈ w.fifos) :
    ∃ resp : Response,
      handle_client_request w req = { w with trace := w.trace ++
        [.openFifo (server_client_fifo req.client_pid) .O_WRONLY true,
         .openFile req.filename .O_RDONLY true,
         .read req.filename req.bytes.toNat resp.bytes,
         .close (some req.filename),
         .send (server_client_fifo req.client_pid) resp,
         .close (some (server_client_fifo req.client_pid))] }
      ∧ resp.status = 0
      ∧ resp.bytes = min req.bytes content.length
      ∧ resp.data.take resp.bytes.toNat = content.take resp.bytes.toNat
      ∧ (req.bytes ≤ content.length → resp.bytes = req.bytes) := by
  have hsz := size_t_of_bytes req.bytes hpos hlt
  have hlen : ((content.take req.bytes.toNat).length : Int) = min req.bytes content.length := by
    rw [List.length_take]
    omega
  have hpfo := pfo_read_ok
    (w.log (.openFifo (server_client_fifo req.client_pid) .O_WRONLY true))
    req.filename req.data req.bytes Response.zero content hfile hopen hread
  refine ⟨⟨0, content.take req.bytes.toNat
      ++ (List.replicate MAX_BUF 0).drop (content.take req.bytes.toNat).length,
      (content.take req.bytes.toNat).length⟩, ?_, rfl, hlen, ?_, ?_⟩
  · rw [handle_reply w req hfifo, hmode, hpfo, hsz]
    simp [sys_close, sys_send, World.log, Response.zero, ERR_FILE_OPEN]
  · show List.take ((content.take req.bytes.toNat).length : Int).toNat _ = _
    rw [Int.toNat_natCast, List.take_left' rfl]
    exact (take_take_length content _).symm
  · intro hle
    show ((content.take req.bytes.toNat).length : Int) = req.bytes
    rw [hlen]; omega

/-- Witness for C1 amended: client 42 reads five bytes of the seven-byte `a.txt`. -/
theorem read_returns_leading_bytes_witness :
    ∃ resp : Response,
      handle_client_request demo_world demo_read = { demo_world with trace :=
        [.openFifo "/tmp/client_42_fifo" .O_WRONLY true,
         .openFile "a.txt" .O_RDONLY true,
         .read "a.txt" 5 5,
         .close (some "a.txt"),
         .send "/tmp/client_42_fifo" resp,
         .close (some "/tmp/client_42_fifo")] }
      ∧ resp.status = 0 ∧ resp.bytes = 5 ∧ resp.data.take 5 = [1, 2, 3, 4, 5] := by
  obtain ⟨resp, h, hs, hb, hd, _⟩ :=
    read_returns_leading_bytes demo_world demo_read [1, 2, 3, 4, 5, 6, 7]
      rfl (by decide) (by decide) rfl (by decide) rfl (by decide)
  have hb5 : resp.bytes = 5 := hb
  rw [hb5] at h hd
  exact ⟨resp, h, hs, hb5, hd⟩

/-- Counterexample to C2 as stated, on a target that exists and can be opened
for writing: when the `write` fails the Response has status `-1` and the
target keeps its contents; and when the reply channel cannot be opened no
Response is sent and nothing is written. -/
theorem write_error_reported_failed :
    handle_client_request write_fault_world demo_write
      = { write_fault_world with
          trace := [.openFifo "/tmp/client_42_fifo" .O_WRONLY true,
            .openFile "a.txt" .O_WRONLY true, .write "a.txt" 5 (-1), .close (some "a.txt"),
            .send "/tmp/client_42_fifo" ⟨-1, List.replicate MAX_BUF 0, 0⟩,
            .close (some "/tmp/client_42_fifo")] }
    ∧ (handle_client_request write_fault_world demo_write).files
        = [("a.txt", [1, 2, 3, 4, 5, 6, 7])]
    ∧ handle_client_request lonely_world demo_write
      = { lonely_world with
          trace := [.openFifo "/tmp/client_42_fifo" .O_WRONLY false] }
    ∧ (handle_client_request lonely_world demo_write).files
        = [("a.txt", [1, 2, 3, 4, 5, 6, 7])] :=
  ⟨rfl, rfl, rfl, rfl⟩

/-- Claim C2, amended: for every Write request with `0 < bytes < 1024` (its
payload buffer holding `MAX_BUF` bytes) whose target exists and can be opened
for writing, whose `write` transfers all the bytes (no error, no short write)
and whose reply channel can be opened,
`handle_client_request` sends a Response with status 0 and byte count `bytes`,
and afterwards the target holds the first `bytes` bytes of the payload followed
by its old contents from offset `bytes` on: it is neither truncated nor
extended beyond the payload. -/
theorem write_overwrites_leading_bytes (w : World) (req : Request) (content : List Nat)
    (hmode : req.mode = 'w') (hpos : 0 < req.bytes) (hlt : req.bytes < MAX_BUF)
    (hdata : req.data.length = MAX_BUF)
    (hfile : w.files.lookup req.filename = some content)
    (hopen : req.filename ∉ w.wdeny)
    (hwrite : w.wfault = false ∧ w.wlimit = none)
    (hfifo : server_client_fifo req.client_pid ∈ w.fifos) :
    ∃ (resp : Response) (new : List Nat),
      handle_client_request w req = { w with
        files := setFile w.files req.filename new
        trace := w.trace ++
          [.openFifo (server_client_fifo req.client_pid) .O_WRONLY true,
           .openFile req.filename .O_WRONLY true,
           .write req.filename req.bytes.toNat req.bytes,
           .close (some req.filename),
           .send (server_client_fifo req.client_pid) resp,
           .close (some (server_client_fifo req.client_pid))] }
      ∧ (handle_client_request w req).files.lookup req.filename = some new
      ∧ resp.status = 0
      ∧ resp.bytes = req.bytes
      ∧ new.take req.bytes.toNat = req.data.take req.bytes.toNat
      ∧ new.drop req.bytes.toNat = content.drop req.bytes.toNat
      ∧ new.length = max req.bytes.toNat content.length := by
  have hsz := size_t_of_bytes req.bytes hpos hlt
  have hmax : (MAX_BUF : Int) = 1024 := rfl
  have hwl : write_len (w.log (.openFifo (server_client_fifo req.client_pid) .O_WRONLY true))
      req.bytes.toNat = req.bytes.toNat := by
    show write_len w req.bytes.toNat = req.bytes.toNat
    simp [write_len, hwrite.2]
  have hlen : (req.data.take req.bytes.toNat).length = req.bytes.toNat := by
    rw [List.length_take, hdata]
    have : MAX_BUF = 1024 := rfl
    omega
  have hpfo := pfo_write_ok
    (w.log (.openFifo (server_client_fifo req.client_pid) .O_WRONLY true))
    req.filename req.data req.bytes Response.zero content hfile hopen hwrite.1
  rw [hsz, hwl, hlen] at hpfo
  have hcast : ((req.bytes.toNat : Nat) : Int) = req.bytes := Int.toNat_of_nonneg (le_of_lt hpos)
  have hmain : handle_client_request w req = { w with
        files := setFile w.files req.filename
          (req.data.take req.bytes.toNat ++ content.drop req.bytes.toNat)
        trace := w.trace ++
          [.openFifo (server_client_fifo req.client_pid) .O_WRONLY true,
           .openFile req.filename .O_WRONLY true,
           .write req.filename req.bytes.toNat req.bytes,
           .close (some req.filename),
           .send (server_client_fifo req.client_pid) ⟨0, List.replicate MAX_BUF 0, req.bytes⟩,
           .close (some (server_client_fifo req.client_pid))] } := by
    rw [handle_reply w req hfifo, hmode, hpfo]
    simp [sys_close, sys_send, World.log, Response.zero, ERR_FILE_OPEN, hcast]
  refine ⟨⟨0, List.replicate MAX_BUF 0, req.bytes⟩,
    req.data.take req.bytes.toNat ++ content.drop req.bytes.toNat, hmain, ?_, rfl, rfl, ?_, ?_, ?_⟩
  · rw [hmain]
    exact lookup_setFile _ _ _ _ hfile
  · rw [List.take_append_of_le_length (le_of_eq hlen.symm), List.take_take, min_self]
  · rw [List.drop_append_of_le_length (le_of_eq hlen.symm)]
    simp [hlen]
  · rw [List.length_append, hlen, List.length_drop]
    omega

/-- Witness for C2 amended: client 42 writes five bytes over the seven-byte `a.txt`. -/
theorem write_overwrites_leading_bytes_witness :
    ∃ (resp : Response) (new : List Nat),
      (handle_client_request demo_world demo_write).files.lookup "a.txt" = some new
      ∧ resp.status = 0 ∧ resp.bytes = 5
      ∧ new.take 5 = demo_write.data.take 5
      ∧ new.drop 5 = [6, 7] := by
  obtain ⟨resp, new, _, hl, hs, hb, ht, hd, _⟩ :=
    write_overwrites_leading_bytes demo_world demo_write [1, 2, 3, 4, 5, 6, 7]
      rfl (by decide) (by decide)
      (by simp only [demo_write, List.length_append, List.length_replicate, List.length_cons,
        List.length_nil, MAX_BUF])
      rfl (by decide) ⟨rfl, rfl⟩ (by decide)
  exact ⟨resp, new, hl, hs, hb, ht, hd⟩

/-- Counterexample to C4 as stated: the kernel accepts three of the five bytes
of the request (a short write), and still `process_file_operation` returns 0
and the Response sent has status 0, with byte count 3. -/
theorem short_write_reported_ok :
    process_file_operation short_write_world "a.txt" 'w' demo_write.data 5 Response.zero
      = ({ short_write_world with
            files := [("a.txt", [9, 9, 9, 4, 5, 6, 7])]
            trace := [.openFile "a.txt" .O_WRONLY true, .write "a.txt" 5 3,
              .close (some "a.txt")] },
          ⟨0, List.replicate MAX_BUF 0, 3⟩, 0)
    ∧ handle_client_request short_write_world demo_write
      = { short_write_world with
          files := [("a.txt", [9, 9, 9, 4, 5, 6, 7])]
          trace := [.openFifo "/tmp/client_42_fifo" .O_WRONLY true,
            .openFile "a.txt" .O_WRONLY true, .write "a.txt" 5 3, .close (some "a.txt"),
            .send "/tmp/client_42_fifo" ⟨0, List.replicate MAX_BUF 0, 3⟩,
            .close (some "/tmp/client_42_fifo")] } :=
  ⟨rfl, rfl⟩

/-- Claim C4, amended: for every Write request to an existing target that can
be opened, with the reply channel open: if the `write` fails (returns `-1`),
`process_file_operation` returns `ERR_WRITE`, the target is unchanged and the
Response has status `-1`; if the `write` transfers `n` bytes, whatever `n` is
(a short write included), `process_file_operation` returns 0 and the Response
has status 0 and byte count `n`, the number of bytes actually written. -/
theorem write_status_follows_result (w : World) (req : Request) (content : List Nat)
    (hmode : req.mode = 'w')
    (hfile : w.files.lookup req.filename = some content)
    (hopen : req.filename ∉ w.wdeny)
    (hfifo : server_client_fifo req.client_pid ∈ w.fifos) :
    (w.wfault = true →
      (process_file_operation w req.filename req.mode req.data req.bytes Response.zero).2.2
        = ERR_WRITE
      ∧ handle_client_request w req = { w with trace := w.trace ++
          [.openFifo (server_client_fifo req.client_pid) .O_WRONLY true,
           .openFile req.filename .O_WRONLY true,
           .write req.filename (size_t_of_int req.bytes) (-1),
           .close (some req.filename),
           .send (server_client_fifo req.client_pid) ⟨-1, List.replicate MAX_BUF 0, 0⟩,
           .close (some (server_client_fifo req.client_pid))] })
    ∧ (w.wfault = false →
      (process_file_operation w req.filename req.mode req.data req.bytes Response.zero).2.2 = 0
      ∧ (req.data.take (write_len w (size_t_of_int req.bytes))).length ≤ size_t_of_int req.bytes
      ∧ handle_client_request w req = { w with
          files := setFile w.files req.filename
            (req.data.take (write_len w (size_t_of_int req.bytes))
              ++ content.drop (req.data.take (write_len w (size_t_of_int req.bytes))).length)
          trace := w.trace ++
            [.openFifo (server_client_fifo req.client_pid) .O_WRONLY true,
             .openFile req.filename .O_WRONLY true,
             .write req.filename (size_t_of_int req.bytes)
               (req.data.take (write_len w (size_t_of_int req.bytes))).length,
             .close (some req.filename),
             .send (server_client_fifo req.client_pid)
               ⟨0, List.replicate MAX_BUF 0,
                 (req.data.take (write_len w (size_t_of_int req.bytes))).length⟩,
             .close (some (server_client_fifo req.client_pid))] }) := by
  constructor
  · intro hw
    constructor
    · rw [hmode, pfo_write_fault w _ _ _ _ content hfile hopen hw]
    · rw [handle_reply w req hfifo, hmode,
        pfo_write_fault (w.log (.openFifo (server_client_fifo req.client_pid) .O_WRONLY true))
          req.filename req.data req.bytes Response.zero content hfile hopen hw]
      simp [sys_close, sys_send, World.log, Response.zero, ERR_FILE_OPEN, ERR_WRITE]
  · intro hw
    refine ⟨?_, ?_, ?_⟩
    · rw [hmode, pfo_write_ok w _ _ _ _ content hfile hopen hw]
    · rw [List.length_take]
      have : write_len w (size_t_of_int req.bytes) ≤ size_t_of_int req.bytes := by
        unfold write_len
        split
        · exact le_refl _
        · exact Nat.min_le_left _ _
      omega
    · have hpfo := pfo_write_ok
        (w.log (.openFifo (server_client_fifo req.client_pid) .O_WRONLY true))
        req.filename req.data req.bytes Response.zero content hfile hopen hw
      have hwl : write_len
          (w.log (.openFifo (server_client_fifo req.client_pid) .O_WRONLY true))
          (size_t_of_int req.bytes) = write_len w (size_t_of_int req.bytes) := rfl
      rw [hwl] at hpfo
      rw [handle_reply w req hfifo, hmode, hpfo]
      simp [sys_close, sys_send, World.log, Response.zero, ERR_FILE_OPEN, natCast_ne_neg_one]

/-- Witness for C4 amended: the short write of three of five bytes. -/
theorem write_status_follows_result_witness :
    (process_file_operation short_write_world demo_write.filename demo_write.mode
        demo_write.data demo_write.bytes Response.zero).2.2 = 0
    ∧ (demo_write.data.take (write_len short_write_world (size_t_of_int demo_write.bytes))).length
        ≤ size_t_of_int demo_write.bytes :=
  have h := (write_status_follows_result short_write_world demo_write [1, 2, 3, 4, 5, 6, 7]
    rfl rfl (by decide) (by decide)).2 rfl
  ⟨h.1, h.2.1⟩

/-- Claim C5: in the connect loop, when every `open` of the rendezvous channel
fails with `ENOENT`, the client makes exactly `MAX_RETRIES` = 3 attempts,
reports "Server not responding", sends no request and goes back to the top of
the session loop; and when attempt `k + 1 ≤ 3` succeeds after `k` such
failures, exactly `k + 1` attempts are made, none follows, the request is
written next and "Server not responding" is not reported. -/
theorem connect_retry_bound (env : Env) (w : World) (c : Client) (req : Request) :
    ((∀ i, i < MAX_RETRIES → env.server_open i = .enoent) →
      serve_request env w c req = some ({ w with
          trace := w.trace ++ failed_attempts MAX_RETRIES ++
            [.printf "Server not responding\n"] }, .again)
      ∧ (failed_attempts MAX_RETRIES).countP is_connect_attempt = 3
      ∧ ∀ r ok, Call.sendRequest SERVER_FIFO r ok ∉ failed_attempts MAX_RETRIES)
    ∧ (∀ k, k < MAX_RETRIES → (∀ i, i < k → env.server_open i = .enoent) →
        env.server_open k = .ok →
        ∃ (rest : List Call) (ctl : Control),
          serve_request env w c req = some ({ w with
            trace := w.trace ++ failed_attempts k ++
              [.openFifo SERVER_FIFO .O_WRONLY true,
               .printf "Connected to server FIFO '%s'.\n"] ++ rest }, ctl)
          ∧ (failed_attempts k).countP is_connect_attempt = k
          ∧ (∀ x ∈ rest, is_connect_attempt x = false)
          ∧ Call.printf "Server not responding\n" ∉ rest
          ∧ rest.head? = some (.sendRequest SERVER_FIFO req env.send_ok)
          ∧ (ctl = .again ∨ ctl = .leave)) := by
  constructor
  · intro h
    refine ⟨?_, failed_attempts_count 3, ?_⟩
    · unfold serve_request
      rw [connect_loop_all_enoent env w h]
      simp [World.log, MAX_RETRIES]
    · intro r ok
      simp [failed_attempts, MAX_RETRIES]
  · intro k hk hfail hok
    obtain ⟨rest, ctl, h1, h2, h3, h4, h5⟩ :=
      serve_after_connect env w _ c req k hk (connect_loop_success env w k hk hfail hok)
    refine ⟨rest, ctl, ?_, failed_attempts_count k, h3, h4, h2, h5⟩
    rw [h1]

/-- Witness for C5: a rendezvous channel that never exists, and one that
exists from the second attempt on. -/
theorem connect_retry_bound_witness :
    serve_request absent_server client_world demo_client demo_read
      = some ({ client_world with trace :=
          [.openFifo "/tmp/server_fifo" .O_WRONLY false,
           .printf "Server not available, retrying... (%d/%d)\n", .sleep 1,
           .openFifo "/tmp/server_fifo" .O_WRONLY false,
           .printf "Server not available, retrying... (%d/%d)\n", .sleep 1,
           .openFifo "/tmp/server_fifo" .O_WRONLY false,
           .printf "Server not available, retrying... (%d/%d)\n", .sleep 1,
           .printf "Server not responding\n"] }, .again)
    ∧ ∃ (rest : List Call) (ctl : Control),
        serve_request late_server client_world demo_client demo_read
          = some ({ client_world with trace :=
              [.openFifo "/tmp/server_fifo" .O_WRONLY false,
               .printf "Server not available, retrying... (%d/%d)\n", .sleep 1,
               .openFifo "/tmp/server_fifo" .O_WRONLY true,
               .printf "Connected to server FIFO '%s'.\n"] ++ rest }, ctl)
        ∧ (∀ x ∈ rest, is_connect_attempt x = false)
        ∧ Call.printf "Server not responding\n" ∉ rest := by
  constructor
  · exact ((connect_retry_bound absent_server client_world demo_client demo_read).1
      (fun _ _ => rfl)).1
  · obtain ⟨rest, ctl, h1, _, h3, h4, _⟩ :=
      (connect_retry_bound late_server client_world demo_client demo_read).2 1
        (by decide) (fun i hi => by interval_cases i; rfl) rfl
    exact ⟨rest, ctl, h1, h3, h4⟩

/-- Claim C6: for process ids `p` and `q` (values of `pid_t`), the name the
worker derives from `client_pid = p` equals the name the client with process
id `q` gives its reply channel exactly when `p = q`; and the pipe the client
creates at start-up carries that name. -/
theorem reply_channel_name_injective (p q : Int)
    (hp : INT_MIN ≤ p ∧ p ≤ INT_MAX) (hq : INT_MIN ≤ q ∧ q ≤ INT_MAX) :
    (server_client_fifo p = client_fifo_name q ↔ p = q)
    ∧ (∀ (w : World) (c : Client), (client_startup w q).2 = some c →
        c.client_fifo = client_fifo_name q
        ∧ c.client_fifo ∈ (client_startup w q).1.fifos) := by
  constructor
  · constructor
    · exact fifo_name_injective p q hp hq
    · intro h; rw [h]; rfl
  · intro w c hc
    unfold client_startup at hc ⊢
    rcases hu : sys_unlink w (client_fifo_name q) with ⟨w1, r1⟩
    rcases hmk : sys_mkfifo w1 (client_fifo_name q) with ⟨w2, r2⟩
    simp only [hu, hmk] at hc ⊢
    by_cases hr : r2 = -1
    · rw [if_pos hr] at hc
      simp at hc
    · rw [if_neg hr] at hc ⊢
      simp only [Option.some.injEq] at hc
      subst hc
      exact ⟨rfl, sys_mkfifo_created w1 _ w2 r2 hmk hr⟩

/-- Witness for C6: the worker serving client 42 does not name the channel of
client 43. -/
theorem reply_channel_name_injective_witness :
    server_client_fifo 42 ≠ client_fifo_name 43 :=
  fun h => absurd
    ((reply_channel_name_injective 42 43 (by decide) (by decide)).1.mp h) (by decide)

/-- Claim C7: for every request, when the worker cannot open the client's reply
channel, `handle_client_request` makes that one failing `open` and nothing
else: no call of the file executor, no change to any file or pipe, and no
Response sent. -/
theorem unreachable_client_abandoned (w : World) (req : Request)
    (h : server_client_fifo req.client_pid ∉ w.fifos) :
    handle_client_request w req = { w with trace := w.trace ++
      [.openFifo (server_client_fifo req.client_pid) .O_WRONLY false] } := by
  unfold handle_client_request
  simp only [sys_open_fifo_fail w _ _ h]
  rfl

/-- Witness for C7: a Write request on a machine without reply channel. -/
theorem unreachable_client_abandoned_witness :
    handle_client_request lonely_world demo_write = { lonely_world with trace :=
      [.openFifo "/tmp/client_42_fifo" .O_WRONLY false] } :=
  unreachable_client_abandoned lonely_world demo_write (by decide)

/-- Counterexample to C8 as stated: the reply channel exists, the first
`cleanup` removes it, and the second `cleanup` takes the failure branch
(`unlink` returns `-1`, "Failed to delete client FIFO" is reported). -/
theorem second_cleanup_takes_failure_branch :
    cleanup (cleanup client_world demo_client) demo_client
      = { client_world with
          fifos := []
          trace := [.unlink "/tmp/client_42_fifo" 0,
            .printf "Client FIFO '%s' successfully deleted.\n",
            .unlink "/tmp/client_42_fifo" (-1),
            .perror "Failed to delete client FIFO"] } := by
  decide

/-- Claim C8, amended: `cleanup` is idempotent on the state of the file system:
a second `cleanup` in sequence leaves files and pipes as the first left them.
The second call finds the channel absent, so its `unlink` returns `-1` and it
takes the failure branch, whose only effect is the report "Failed to delete
client FIFO"; the same holds when `handle_signal` ran `cleanup` and the
handler registered with `atexit` runs it again. -/
theorem cleanup_idempotent_on_state (w : World) (c : Client) :
    cleanup (cleanup w c) c = { cleanup w c with trace := (cleanup w c).trace ++
      [.unlink c.client_fifo (-1), .perror "Failed to delete client FIFO"] }
    ∧ (cleanup (cleanup w c) c).files = (cleanup w c).files
    ∧ (cleanup (cleanup w c) c).fifos = (cleanup w c).fifos
    ∧ run_atexit (handle_signal w c).1 (handle_signal w c).2
        = { (handle_signal w c).1 with trace := (handle_signal w c).1.trace ++
            [.unlink c.client_fifo (-1), .perror "Failed to delete client FIFO"] } := by
  have h := cleanup_leaves_absent w c
  have hs := cleanup_leaves_absent (w.log (.printf "Signal received. Initiating cleanup...\n"))
    { c with running := false }
  refine ⟨cleanup_absent _ c h.1 h.2, ?_, ?_, ?_⟩
  · rw [cleanup_absent _ c h.1 h.2]
  · rw [cleanup_absent _ c h.1 h.2]
  · exact cleanup_absent _ _ hs.1 hs.2

/-- Claim C9, failing input: on the lines `a.txt`, `w` and an empty data line
`get_user_input` returns 0 with a Write request whose byte count is 0, so the
request it hands on is not one with `0 < bytes`; the Read branch does make
that test: on the lines `a.txt`, `r`, `0` it asks again and, the input being
at its end, returns `-1`. -/
theorem empty_data_line_accepted :
    (∃ (req : Request) (rest : List Char),
      get_user_input blank_request blank_filename "a.txt\nw\n\n".toList = some (0, req, rest)
      ∧ req.filename = "a.txt" ∧ req.mode = 'w' ∧ req.bytes = 0 ∧ rest = [])
    ∧ (∃ (req : Request) (rest : List Char),
      get_user_input blank_request blank_filename "a.txt\nr\n0\n".toList
        = some (-1, req, rest)) :=
  ⟨⟨_, _, rfl, rfl, rfl, rfl, rfl⟩, ⟨_, _, rfl⟩⟩

/-- Claim C10: for every request whose mode is neither `r` nor `w`,
`process_file_operation` opens no file (its only call is the `close` of the
descriptor it never assigned), changes nothing else and returns 0, so that,
the reply channel being open, `handle_client_request` sends a Response with
status 0, byte count 0 and an all-zero payload. -/
theorem unknown_mode_answers_ok (w : World) (req : Request) (resp : Response)
    (hmode : req.mode ≠ 'r' ∧ req.mode ≠ 'w') :
    process_file_operation w req.filename req.mode req.data req.bytes resp
        = ({ w with trace := w.trace ++ [.close none] }, resp, 0)
    ∧ (server_client_fifo req.client_pid ∈ w.fifos →
        handle_client_request w req = { w with trace := w.trace ++
          [.openFifo (server_client_fifo req.client_pid) .O_WRONLY true,
           .close none,
           .send (server_client_fifo req.client_pid) ⟨0, List.replicate MAX_BUF 0, 0⟩,
           .close (some (server_client_fifo req.client_pid))] }) := by
  refine ⟨pfo_other_mode w _ _ _ _ resp hmode, ?_⟩
  intro hf
  rw [handle_reply w req hf,
    pfo_other_mode (w.log (.openFifo (server_client_fifo req.client_pid) .O_WRONLY true))
      req.filename req.mode req.data req.bytes Response.zero hmode]
  simp [sys_close, sys_send, World.log, Response.zero, ERR_FILE_OPEN]

/-- Witness for C10: a request with mode `x`. -/
theorem unknown_mode_answers_ok_witness :
    handle_client_request demo_world demo_other_mode = { demo_world with trace :=
      [.openFifo "/tmp/client_42_fifo" .O_WRONLY true,
       .close none,
       .send "/tmp/client_42_fifo" ⟨0, List.replicate MAX_BUF 0, 0⟩,
       .close (some "/tmp/client_42_fifo")] } :=
  (unknown_mode_answers_ok demo_world demo_other_mode Response.zero
    ⟨by decide, by decide⟩).2 (by decide)

end PipeEx
